import Mathlib

/-!
Verification of the Georgia-Frog-Identification prediction service
(`src/services/frog-api/main.py`) against its natural-language specification.

The Python source is shallowly embedded: sample buffers become `List ℚ`
(exact rational arithmetic in place of IEEE floats), NumPy arrays of one or
two dimensions become the inductive `NpArray`, fallible steps return
`Option`/`Except`, and the FastAPI endpoints become pure functions from an
explicit inference context and request data to a response outcome.  Calls
into the external `librosa` library (trim, resample, feature extraction) are
not code of this repository; they are modelled as function parameters
(`LibFns`) so theorems can state exactly which properties of the library
they rely on.
-/

namespace FrogAPI

/- The Batteries rational arithmetic operations are `@[irreducible]`, which
blocks `decide` on concrete sample values; making them semireducible in this
file lets witnesses evaluate the embedded pipeline by kernel reduction. -/
attribute [local semireducible] Rat.mul Rat.add Rat.sub Rat.inv

/-- Audio processing constants from `main.py` (`TARGET_SR = 22050`,
`TARGET_DURATION = 10.0`, `PEAK_LEVEL = 0.98`, `PRE_EMPHASIS_COEF = 0.97`). -/
def TARGET_SR : ℕ := 22050

def TARGET_DURATION : ℚ := 10

def PEAK_LEVEL : ℚ := 98 / 100

def PRE_EMPHASIS_COEF : ℚ := 97 / 100

/-- Python `int()` applied to a non-negative float: truncation.  Used for
`int(target_duration * sr)` and `int(target_seconds * sr)`, always on
non-negative durations, where truncation coincides with the floor
`q.num.toNat / q.den`. -/
def pyInt (q : ℚ) : ℕ := q.num.toNat / q.den

/-- The squared RMS (mean of squares) of the window of `ws` samples of `y`
starting at `s`: embeds `np.mean(window**2)` from `find_best_10s_window`.
The source compares `np.sqrt(np.mean(window**2))` values; since `Real.sqrt`
is monotone on the non-negative means and the initial best is `-1` (beaten
by every non-negative value, with or without the square root), comparing the
means themselves selects exactly the same window as comparing their roots. -/
def rms2 (y : List ℚ) (ws s : ℕ) : ℚ :=
  (((y.drop s).take ws).map (fun x => x * x)).sum / (ws : ℚ)

/-- The window-start offsets scanned by `find_best_10s_window`'s loop
`for start in range(0, len(y) - window_samples + 1, hop)` with `hop = sr`,
for a buffer of `n` samples and window of `ws` samples (`ws < n`, `0 < sr`). -/
def scanOffsets (n ws sr : ℕ) : List ℕ :=
  (List.range ((n - ws) / sr + 1)).map (· * sr)

/-- The selection loop of `find_best_10s_window`: carries `best_rms` and
`best_start`, replacing them only on strictly greater RMS (`if rms > best_rms`). -/
def bestStartAux (y : List ℚ) (ws : ℕ) : List ℕ → ℚ → ℕ → ℕ
  | [], _, best => best
  | s :: rest, bestRms, best =>
    if bestRms < rms2 y ws s then bestStartAux y ws rest (rms2 y ws s) s
    else bestStartAux y ws rest bestRms best

/-- Embeds `find_best_10s_window(y, sr, target_duration)`: return the buffer
unchanged when it is at most one window long, otherwise the `window_samples`
slice at the best-RMS offset found by the scan loop (initial
`best_rms = -1`, `best_start = 0`). -/
def find_best_10s_window (y : List ℚ) (sr : ℕ) (targetDuration : ℚ := TARGET_DURATION) :
    List ℚ :=
  let window_samples := pyInt (targetDuration * (sr : ℚ))
  if y.length ≤ window_samples then y
  else
    let best := bestStartAux y window_samples (scanOffsets y.length window_samples sr) (-1) 0
    (y.drop best).take window_samples

/-- Embeds `standardize_duration(y, sr, target_seconds)`: truncate to
`int(target_seconds * sr)` samples, or right-pad with zeros, or pass through. -/
def standardize_duration (y : List ℚ) (sr : ℕ) (targetSeconds : ℚ) : List ℚ :=
  let target_len := pyInt (targetSeconds * (sr : ℚ))
  if target_len < y.length then y.take target_len
  else if y.length < target_len then y ++ List.replicate (target_len - y.length) 0
  else y

/-- Embeds `np.max(np.abs(y)) if y.size else 0.0` from `peak_normalize`: the maximum
absolute amplitude of the buffer, `0` for an empty buffer. -/
def maxAbs (y : List ℚ) : ℚ := y.foldr (fun a acc => max |a| acc) 0

/-- Embeds `peak_normalize(y, peak)`: scale so the maximum absolute amplitude equals
`peak` when the current maximum is positive; otherwise return `y` unchanged. -/
def peak_normalize (y : List ℚ) (peak : ℚ := PEAK_LEVEL) : List ℚ :=
  if 0 < maxAbs y then y.map (fun x => x / maxAbs y * peak) else y

theorem maxAbs_nonneg (y : List ℚ) : 0 ≤ maxAbs y := by
  induction y with
  | nil => simp [maxAbs]
  | cons a l ih => simpa [maxAbs] using Or.inr ih

theorem abs_le_maxAbs (y : List ℚ) : ∀ x ∈ y, |x| ≤ maxAbs y := by
  induction y with
  | nil => simp
  | cons a l ih =>
    intro x hx
    rcases List.mem_cons.mp hx with h | h
    · simpa [maxAbs, h] using le_max_left _ _
    · exact le_trans (ih x h) (by simpa [maxAbs] using le_max_right _ _)

theorem rms2_nonneg (y : List ℚ) (ws s : ℕ) : 0 ≤ rms2 y ws s := by
  unfold rms2
  apply div_nonneg
  · apply List.sum_nonneg
    intro x hx
    rcases List.mem_map.mp hx with ⟨a, _, rfl⟩
    exact mul_self_nonneg a
  · exact_mod_cast Nat.zero_le ws

/-- Invariant of the RMS scan loop: starting from a consistent state
(`best_rms` is the RMS of `best = b`) and a sorted list of offsets all at or
after `b`, the loop returns the earliest offset among `b` and the remaining
ones achieving the maximal RMS. -/
theorem bestStartAux_spec (y : List ℚ) (ws : ℕ) (L : List ℕ) :
    ∀ b : ℕ, L.Pairwise (· ≤ ·) → (∀ s ∈ L, b ≤ s) →
      (bestStartAux y ws L (rms2 y ws b) b = b ∨ bestStartAux y ws L (rms2 y ws b) b ∈ L) ∧
      rms2 y ws b ≤ rms2 y ws (bestStartAux y ws L (rms2 y ws b) b) ∧
      (∀ s ∈ L, rms2 y ws s ≤ rms2 y ws (bestStartAux y ws L (rms2 y ws b) b)) ∧
      (rms2 y ws b = rms2 y ws (bestStartAux y ws L (rms2 y ws b) b) →
        bestStartAux y ws L (rms2 y ws b) b ≤ b) ∧
      (∀ s ∈ L, rms2 y ws s = rms2 y ws (bestStartAux y ws L (rms2 y ws b) b) →
        bestStartAux y ws L (rms2 y ws b) b ≤ s) := by
  induction L with
  | nil =>
    intro b _ _
    refine ⟨Or.inl rfl, le_refl _, ?_, fun _ => le_refl _, ?_⟩ <;> simp [bestStartAux]
  | cons s rest ih =>
    intro b hpw hb
    obtain ⟨hs_rest, hpw'⟩ := List.pairwise_cons.mp hpw
    by_cases hlt : rms2 y ws b < rms2 y ws s
    · have hstep : bestStartAux y ws (s :: rest) (rms2 y ws b) b
          = bestStartAux y ws rest (rms2 y ws s) s := by
        simp [bestStartAux, hlt]
      obtain ⟨m1, m2, m3, m4, m5⟩ := ih s hpw' hs_rest
      rw [hstep]
      refine ⟨?_, le_of_lt (lt_of_lt_of_le hlt m2), ?_, ?_, ?_⟩
      · rcases m1 with h | h
        · exact Or.inr (List.mem_cons.mpr (Or.inl h))
        · exact Or.inr (List.mem_cons_of_mem _ h)
      · intro t ht
        rcases List.mem_cons.mp ht with rfl | ht'
        · exact m2
        · exact m3 t ht'
      · intro heq
        exact absurd (heq ▸ lt_of_lt_of_le hlt m2) (lt_irrefl _)
      · intro t ht htie
        rcases List.mem_cons.mp ht with rfl | ht'
        · exact m4 htie
        · exact m5 t ht' htie
    · have hstep : bestStartAux y ws (s :: rest) (rms2 y ws b) b
          = bestStartAux y ws rest (rms2 y ws b) b := by
        simp [bestStartAux, hlt]
      have hsb : rms2 y ws s ≤ rms2 y ws b := le_of_not_lt hlt
      obtain ⟨m1, m2, m3, m4, m5⟩ :=
        ih b hpw' (fun t ht => hb t (List.mem_cons_of_mem _ ht))
      rw [hstep]
      refine ⟨?_, m2, ?_, m4, ?_⟩
      · rcases m1 with h | h
        · exact Or.inl h
        · exact Or.inr (List.mem_cons_of_mem _ h)
      · intro t ht
        rcases List.mem_cons.mp ht with rfl | ht'
        · exact le_trans hsb m2
        · exact m3 t ht'
      · intro t ht htie
        rcases List.mem_cons.mp ht with rfl | ht'
        · have hmb : rms2 y ws (bestStartAux y ws rest (rms2 y ws b) b) ≤ rms2 y ws b :=
            htie ▸ hsb
          exact le_trans (m4 (le_antisymm m2 hmb)) (hb t (List.mem_cons_self _ _))
        · exact m5 t ht' htie

/-- Membership in the scanned offset set: exactly the multiples of `sr`
whose full window fits in the buffer. -/
theorem mem_scanOffsets (n ws sr : ℕ) (hsr : 0 < sr) (hws : ws ≤ n) :
    ∀ s, s ∈ scanOffsets n ws sr ↔ ∃ k, s = k * sr ∧ s + ws ≤ n := by
  intro s
  unfold scanOffsets
  simp only [List.mem_map, List.mem_range]
  constructor
  · rintro ⟨k, hk, rfl⟩
    refine ⟨k, rfl, ?_⟩
    have hk' : k ≤ (n - ws) / sr := Nat.lt_succ_iff.mp hk
    have : k * sr ≤ (n - ws) / sr * sr := Nat.mul_le_mul_right _ hk'
    have h2 : (n - ws) / sr * sr ≤ n - ws := Nat.div_mul_le_self _ _
    omega
  · rintro ⟨k, rfl, hle⟩
    refine ⟨k, ?_, rfl⟩
    have : k * sr ≤ n - ws := by omega
    have := (Nat.le_div_iff_mul_le hsr).mpr this
    omega

/-- The scanned offsets are `0 ::` the positive multiples of `sr`, and the
tail is sorted. -/
theorem scanOffsets_eq_cons (n ws sr : ℕ) :
    scanOffsets n ws sr = 0 :: (List.range ((n - ws) / sr)).map (fun i => (i + 1) * sr) := by
  unfold scanOffsets
  rw [List.range_succ_eq_map]
  simp [List.map_map, Function.comp_def, Nat.succ_eq_add_one]

theorem scanOffsets_tail_sorted (n ws sr : ℕ) :
    ((List.range ((n - ws) / sr)).map (fun i => (i + 1) * sr)).Pairwise (· ≤ ·) := by
  exact (List.pairwise_lt_range _).map _
    (fun a b hab => Nat.mul_le_mul_right _ (by omega))

/-- The best window start is the least offset (among the scanned ones)
achieving maximal RMS. -/
theorem bestStart_spec (y : List ℚ) (ws sr : ℕ) :
    bestStartAux y ws (scanOffsets y.length ws sr) (-1) 0 ∈ scanOffsets y.length ws sr ∧
    (∀ s ∈ scanOffsets y.length ws sr,
      rms2 y ws s ≤ rms2 y ws (bestStartAux y ws (scanOffsets y.length ws sr) (-1) 0)) ∧
    (∀ s ∈ scanOffsets y.length ws sr,
      rms2 y ws s = rms2 y ws (bestStartAux y ws (scanOffsets y.length ws sr) (-1) 0) →
      bestStartAux y ws (scanOffsets y.length ws sr) (-1) 0 ≤ s) := by
  rw [scanOffsets_eq_cons]
  have hfirst : bestStartAux y ws
      (0 :: (List.range ((y.length - ws) / sr)).map (fun i => (i + 1) * sr)) (-1) 0
      = bestStartAux y ws ((List.range ((y.length - ws) / sr)).map (fun i => (i + 1) * sr))
          (rms2 y ws 0) 0 := by
    have h0 : (-1 : ℚ) < rms2 y ws 0 := lt_of_lt_of_le (by norm_num) (rms2_nonneg y ws 0)
    simp [bestStartAux, h0]
  rw [hfirst]
  obtain ⟨m1, m2, m3, m4, m5⟩ := bestStartAux_spec y ws
    ((List.range ((y.length - ws) / sr)).map (fun i => (i + 1) * sr)) 0
    (scanOffsets_tail_sorted _ _ _) (fun s _ => Nat.zero_le s)
  refine ⟨?_, ?_, ?_⟩
  · rcases m1 with h | h
    · exact List.mem_cons.mpr (Or.inl h)
    · exact List.mem_cons_of_mem _ h
  · intro s hs
    rcases List.mem_cons.mp hs with rfl | hs'
    · exact m2
    · exact m3 s hs'
  · intro s hs htie
    rcases List.mem_cons.mp hs with rfl | hs'
    · exact m4 htie
    · exact m5 s hs' htie

/-- C4: a buffer of at most `target_duration * sample_rate` samples is
returned unchanged by the window selector; a longer buffer yields the
contiguous sub-buffer of exactly that many samples starting at the
multiple-of-`sr` offset (among the scanned ones, which are exactly the
multiples of `sr` whose window fits) of maximal RMS energy, the earliest
such offset in case of exact ties. -/
theorem find_best_10s_window_spec (y : List ℚ) (sr : ℕ) (q : ℚ) (hsr : 0 < sr) :
    (y.length ≤ pyInt (q * (sr : ℚ)) → find_best_10s_window y sr q = y) ∧
    (pyInt (q * (sr : ℚ)) < y.length →
      ∃ m, m ∈ scanOffsets y.length (pyInt (q * (sr : ℚ))) sr ∧
        (∃ k, m = k * sr) ∧
        find_best_10s_window y sr q = (y.drop m).take (pyInt (q * (sr : ℚ))) ∧
        (find_best_10s_window y sr q).length = pyInt (q * (sr : ℚ)) ∧
        (∀ s, s ∈ scanOffsets y.length (pyInt (q * (sr : ℚ))) sr ↔
          ∃ k, s = k * sr ∧ s + pyInt (q * (sr : ℚ)) ≤ y.length) ∧
        (∀ s ∈ scanOffsets y.length (pyInt (q * (sr : ℚ))) sr,
          rms2 y (pyInt (q * (sr : ℚ))) s ≤ rms2 y (pyInt (q * (sr : ℚ))) m) ∧
        (∀ s ∈ scanOffsets y.length (pyInt (q * (sr : ℚ))) sr,
          rms2 y (pyInt (q * (sr : ℚ))) s = rms2 y (pyInt (q * (sr : ℚ))) m → m ≤ s)) := by
  constructor
  · intro hle
    unfold find_best_10s_window
    simp [hle]
  · intro hgt
    obtain ⟨hm, hmax, htie⟩ := bestStart_spec y (pyInt (q * (sr : ℚ))) sr
    refine ⟨bestStartAux y (pyInt (q * (sr : ℚ)))
      (scanOffsets y.length (pyInt (q * (sr : ℚ))) sr) (-1) 0, hm, ?_, ?_, ?_, ?_, hmax, htie⟩
    · obtain ⟨k, hk, _⟩ := (mem_scanOffsets y.length _ sr hsr (le_of_lt hgt) _).mp hm
      exact ⟨k, hk⟩
    · unfold find_best_10s_window
      simp [Nat.not_le.mpr hgt]
    · obtain ⟨k, hk, hfit⟩ := (mem_scanOffsets y.length _ sr hsr (le_of_lt hgt) _).mp hm
      unfold find_best_10s_window
      simp only [Nat.not_le.mpr hgt, if_false]
      rw [List.length_take, List.length_drop]
      omega
    · exact mem_scanOffsets y.length _ sr hsr (le_of_lt hgt)

/-- Witness for C4: a concrete 4-sample buffer at `sr = 1`, `q = 2`
(`window = 2` samples, offsets `0, 1, 2`): the selector picks the final
window `[1, 1]`, the one of maximal RMS. -/
theorem find_best_10s_window_spec_witness :
    pyInt ((2 : ℚ) * ((1 : ℕ) : ℚ)) < ([(0 : ℚ), 0, 1, 1]).length ∧
    find_best_10s_window [(0 : ℚ), 0, 1, 1] 1 2 = [1, 1] := by
  have h := (find_best_10s_window_spec [(0 : ℚ), 0, 1, 1] 1 2 (by decide)).2 (by decide)
  obtain ⟨m, hm, -, heq, -, -, hmax, -⟩ := h
  have h2 : (2 : ℕ) ∈ scanOffsets ([(0 : ℚ), 0, 1, 1]).length (pyInt ((2 : ℚ) * ((1 : ℕ) : ℚ))) 1 := by
    decide
  have hm' : m = 0 ∨ m = 1 ∨ m = 2 := by
    have : scanOffsets ([(0 : ℚ), 0, 1, 1]).length (pyInt ((2 : ℚ) * ((1 : ℕ) : ℚ))) 1
        = [0, 1, 2] := by decide
    rw [this] at hm
    simpa using hm
  have hmx := hmax 2 h2
  rcases hm' with rfl | rfl | rfl
  · exact absurd hmx (by decide)
  · exact absurd hmx (by decide)
  · exact ⟨by decide, by rw [heq]; decide⟩

/-- C6: peak normalization never produces an amplitude whose absolute value
exceeds the configured peak level, and a buffer of maximum absolute
amplitude zero is returned unchanged. -/
theorem peak_normalize_spec (y : List ℚ) :
    (∀ x ∈ peak_normalize y PEAK_LEVEL, |x| ≤ PEAK_LEVEL) ∧
    (maxAbs y = 0 → peak_normalize y PEAK_LEVEL = y) := by
  constructor
  · intro x hx
    unfold peak_normalize at hx
    by_cases hpos : 0 < maxAbs y
    · rw [if_pos hpos] at hx
      rcases List.mem_map.mp hx with ⟨a, ha, rfl⟩
      have hle : |a| ≤ maxAbs y := abs_le_maxAbs y a ha
      have hpk : (0 : ℚ) ≤ PEAK_LEVEL := by norm_num [PEAK_LEVEL]
      calc |a / maxAbs y * PEAK_LEVEL| = |a| / maxAbs y * PEAK_LEVEL := by
            rw [abs_mul, abs_div, abs_of_pos hpos, abs_of_nonneg hpk]
        _ ≤ 1 * PEAK_LEVEL := by
            apply mul_le_mul_of_nonneg_right _ hpk
            rw [div_le_one hpos]
            exact hle
        _ = PEAK_LEVEL := one_mul _
    · rw [if_neg hpos] at hx
      have h0 : maxAbs y = 0 := le_antisymm (le_of_not_lt hpos) (maxAbs_nonneg y)
      have := abs_le_maxAbs y x hx
      rw [h0] at this
      calc |x| ≤ 0 := this
        _ ≤ PEAK_LEVEL := by norm_num [PEAK_LEVEL]
  · intro h0
    unfold peak_normalize
    rw [h0]
    simp

/-- Witness for C6 at the all-zero one-sample buffer: the buffer passes
through unchanged and its element is within the peak level. -/
theorem peak_normalize_spec_witness :
    ((0 : ℚ) ∈ peak_normalize [(0 : ℚ)] PEAK_LEVEL → |(0 : ℚ)| ≤ PEAK_LEVEL) ∧
    peak_normalize [(0 : ℚ)] PEAK_LEVEL = [0] :=
  ⟨fun hmem => (peak_normalize_spec [(0 : ℚ)]).1 0 hmem,
   (peak_normalize_spec [(0 : ℚ)]).2 (by decide)⟩

/-- A NumPy audio buffer as loaded by `librosa.load(..., mono=False)`:
either one-dimensional (mono) or two-dimensional (a list of rows). -/
inductive NpArray where
  | one (y : List ℚ)
  | two (rows : List (List ℚ))

/-- Embeds `np.mean` of a flat list (`0` for the empty list, as a total model). -/
def meanList (l : List ℚ) : ℚ := l.sum / (l.length : ℚ)

/-- Embeds `to_mono(y)`: identity on one-dimensional buffers; otherwise the
channel-first heuristic (`y.shape[0] <= 8 and y.shape[1] > 8` averages along
axis 0, anything else along the last axis). -/
def to_mono : NpArray → List ℚ
  | .one y => y
  | .two rows =>
    if rows.length ≤ 8 ∧ 8 < (rows.headD []).length then
      (List.range (rows.headD []).length).map (fun j => meanList (rows.map (fun r => r.getD j 0)))
    else
      rows.map meanList

/-- The external `librosa` primitives the service calls.  They are not code
of this repository, so they are parameters of the embedding; theorems state
explicitly which of their properties they use. -/
structure LibFns where
  trim : List ℚ → ℚ → List ℚ
  resample : List ℚ → ℕ → ℕ → List ℚ
  extract : List ℚ → ℕ → List (String × ℚ)

/-- Embeds `trim_silence(y, top_db)`: `librosa.effects.trim`, falling back to the
original buffer when trimming removed everything (`yt if yt.size > 0 else y`). -/
def trim_silence (lib : LibFns) (y : List ℚ) (top_db : ℚ := 30) : List ℚ :=
  if 0 < (lib.trim y top_db).length then lib.trim y top_db else y

/-- Modelled from the spec: `librosa.effects.preemphasis(y, coef)` is not
code of this repository; the spec defines it as the first-order high-pass
filter `y[n] = x[n] − coef·x[n−1]` whose first sample is unfiltered. -/
def preemphasis (coef : ℚ) (y : List ℚ) : List ℚ :=
  y.zipWith (fun cur prev => cur - coef * prev) (0 :: y)

/-- Embeds `normalize_audio(y, sr, apply_preemphasis)`: mono collapse, silence trim,
best-window selection, resample to `TARGET_SR` when needed, duration
standardization, optional pre-emphasis, peak normalization. -/
def normalize_audio (lib : LibFns) (y0 : NpArray) (sr0 : ℕ)
    (applyPreemphasis : Bool := true) : List ℚ × ℕ :=
  let y1 := to_mono y0
  let y2 := trim_silence lib y1 30
  let y3 := find_best_10s_window y2 sr0 TARGET_DURATION
  let y4 := if sr0 ≠ TARGET_SR then lib.resample y3 sr0 TARGET_SR else y3
  let sr1 := if sr0 ≠ TARGET_SR then TARGET_SR else sr0
  let y5 := standardize_duration y4 sr1 TARGET_DURATION
  let y6 := if applyPreemphasis then preemphasis PRE_EMPHASIS_COEF y5 else y5
  let y7 := peak_normalize y6 PEAK_LEVEL
  (y7, sr1)

theorem allZero_find_best (y : List ℚ) (sr : ℕ) (q : ℚ) (h : ∀ x ∈ y, x = 0) :
    ∀ x ∈ find_best_10s_window y sr q, x = 0 := by
  intro x hx
  unfold find_best_10s_window at hx
  by_cases hle : y.length ≤ pyInt (q * (sr : ℚ))
  · rw [if_pos hle] at hx
    exact h x hx
  · rw [if_neg hle] at hx
    exact h x (List.mem_of_mem_drop (List.mem_of_mem_take hx))

theorem standardize_allZero (y : List ℚ) (sr : ℕ) (t : ℚ) (h : ∀ x ∈ y, x = 0) :
    standardize_duration y sr t = List.replicate (pyInt (t * (sr : ℚ))) 0 := by
  unfold standardize_duration
  by_cases h1 : pyInt (t * (sr : ℚ)) < y.length
  · rw [if_pos h1]
    apply List.eq_replicate.mpr
    refine ⟨by rw [List.length_take]; omega, ?_⟩
    intro b hb
    exact h b (List.mem_of_mem_take hb)
  · rw [if_neg h1]
    by_cases h2 : y.length < pyInt (t * (sr : ℚ))
    · rw [if_pos h2]
      apply List.eq_replicate.mpr
      refine ⟨by rw [List.length_append, List.length_replicate]; omega, ?_⟩
      intro b hb
      rcases List.mem_append.mp hb with hb | hb
      · exact h b hb
      · exact List.eq_of_mem_replicate hb
    · rw [if_neg h2]
      apply List.eq_replicate.mpr
      exact ⟨by omega, h⟩

theorem maxAbs_eq_zero (y : List ℚ) (h : ∀ x ∈ y, x = 0) : maxAbs y = 0 := by
  induction y with
  | nil => rfl
  | cons a l ih =>
    have ha : a = 0 := h a (List.mem_cons_self _ _)
    have hl := ih (fun x hx => h x (List.mem_cons_of_mem _ hx))
    simp [maxAbs, ha]
    exact le_of_eq (by simpa [maxAbs] using hl)

theorem zipWith_pre_allZero (c : ℚ) :
    ∀ (l : List ℚ) (z : ℚ), z = 0 → (∀ x ∈ l, x = 0) →
      List.zipWith (fun cur prev => cur - c * prev) l (z :: l) = List.replicate l.length 0
  | [], _, _, _ => rfl
  | a :: t, z, hz, h => by
    have ha : a = 0 := h a (List.mem_cons_self _ _)
    have ht := zipWith_pre_allZero c t a ha (fun x hx => h x (List.mem_cons_of_mem _ hx))
    show (a - c * z) :: List.zipWith _ t (a :: t) = List.replicate (t.length + 1) 0
    rw [List.replicate_succ, ht, ha, hz]
    norm_num

theorem preemphasis_allZero (c : ℚ) (l : List ℚ) (h : ∀ x ∈ l, x = 0) :
    preemphasis c l = List.replicate l.length 0 :=
  zipWith_pre_allZero c l 0 rfl h

theorem peak_normalize_allZero (y : List ℚ) (h : ∀ x ∈ y, x = 0) :
    peak_normalize y PEAK_LEVEL = y := by
  unfold peak_normalize
  rw [maxAbs_eq_zero y h]
  simp

/-- C5: an all-zero 3-second 16 kHz mono buffer is normalized to an all-zero
buffer of exactly `10 × 22050 = 220500` samples at sample rate 22050.  The
two `librosa` primitives involved are only assumed to map all-zero buffers
to all-zero buffers (for `trim` this follows from it returning a slice of
its input). -/
theorem normalize_audio_silent (lib : LibFns)
    (htrim : ∀ y db, (∀ x ∈ y, x = 0) → ∀ x ∈ lib.trim y db, x = 0)
    (hres : ∀ y a b, (∀ x ∈ y, x = 0) → ∀ x ∈ lib.resample y a b, x = 0) :
    normalize_audio lib (NpArray.one (List.replicate 48000 0)) 16000 true
      = (List.replicate 220500 0, 22050) := by
  have h0 : ∀ x ∈ List.replicate 48000 (0 : ℚ), x = 0 :=
    fun x hx => List.eq_of_mem_replicate hx
  have h1 : ∀ x ∈ trim_silence lib (List.replicate 48000 (0 : ℚ)) 30, x = 0 := by
    intro x hx
    unfold trim_silence at hx
    by_cases hc : 0 < (lib.trim (List.replicate 48000 (0 : ℚ)) 30).length
    · rw [if_pos hc] at hx
      exact htrim _ 30 h0 x hx
    · rw [if_neg hc] at hx
      exact h0 x hx
  have h2 := allZero_find_best _ 16000 TARGET_DURATION h1
  have h3 : ∀ x ∈ lib.resample
      (find_best_10s_window (trim_silence lib (List.replicate 48000 (0 : ℚ)) 30) 16000
        TARGET_DURATION) 16000 TARGET_SR, x = 0 :=
    hres _ _ _ h2
  have hsr : (16000 : ℕ) ≠ TARGET_SR := by decide
  have htgt : pyInt (TARGET_DURATION * ((TARGET_SR : ℕ) : ℚ)) = 220500 := by decide
  unfold normalize_audio
  simp only [to_mono, eq_true hsr, if_true, eq_self_iff_true]
  rw [standardize_allZero _ _ _ h3, htgt,
    preemphasis_allZero _ _ (fun x hx => List.eq_of_mem_replicate hx),
    List.length_replicate,
    peak_normalize_allZero _ (fun x hx => List.eq_of_mem_replicate hx)]
  rfl

/-- Witness for C5: the library hypotheses are discharged with concrete
identity-like primitives. -/
theorem normalize_audio_silent_witness :
    normalize_audio ⟨fun y _ => y, fun y _ _ => y, fun _ _ => []⟩
      (NpArray.one (List.replicate 48000 0)) 16000 true
      = (List.replicate 220500 0, 22050) :=
  normalize_audio_silent ⟨fun y _ => y, fun y _ _ => y, fun _ _ => []⟩
    (fun _ _ h => h) (fun _ _ _ h => h)

/-- Reads `proba[i]` with the out-of-range default `0` (all indices produced by
`argsort` are in range). -/
def probaVal (proba : List ℚ) (i : ℕ) : ℚ := proba.getD i 0

/-- Embeds `np.argsort(proba)`: the class indices sorted by ascending probability.
NumPy's default quicksort leaves the relative order of exactly equal values
unspecified; the embedding uses the stable ascending sort (ties by ascending
index), which is what NumPy's introsort produces on the inputs examined here
(in particular, on two equal values no swap occurs and the order `[0, 1]` is
returned). -/
def argsort (proba : List ℚ) : List ℕ :=
  List.insertionSort
    (fun i j => probaVal proba i < probaVal proba j ∨
      (probaVal proba i = probaVal proba j ∧ i ≤ j))
    (List.range proba.length)

/-- Embeds `np.argsort(proba)[::-1][:3]` from `predict` and `predict_from_audio`. -/
def top3Indices (proba : List ℚ) : List ℕ := ((argsort proba).reverse).take 3

/-- The `top_3` list construction shared by both endpoints:
`{"species": str(model.classes_[idx]), "confidence": float(proba[idx])}`
for each of the top-3 indices. -/
def computeTop3 (classes : List String) (proba : List ℚ) : List (String × ℚ) :=
  (top3Indices proba).map (fun i => (classes.getD i "", probaVal proba i))

theorem argsort_sorted_strict (proba : List ℚ) :
    (argsort proba).Pairwise (fun i j => probaVal proba i < probaVal proba j ∨
      (probaVal proba i = probaVal proba j ∧ i < j)) := by
  haveI htot : IsTotal ℕ (fun i j => probaVal proba i < probaVal proba j ∨
      (probaVal proba i = probaVal proba j ∧ i ≤ j)) := by
    constructor
    intro i j
    rcases lt_trichotomy (probaVal proba i) (probaVal proba j) with h | h | h
    · exact Or.inl (Or.inl h)
    · rcases Nat.le_total i j with hij | hij
      · exact Or.inl (Or.inr ⟨h, hij⟩)
      · exact Or.inr (Or.inr ⟨h.symm, hij⟩)
    · exact Or.inr (Or.inl h)
  haveI htr : IsTrans ℕ (fun i j => probaVal proba i < probaVal proba j ∨
      (probaVal proba i = probaVal proba j ∧ i ≤ j)) := by
    constructor
    intro a b c hab hbc
    rcases hab with hab | ⟨hab, hab'⟩
    · rcases hbc with hbc | ⟨hbc, _⟩
      · exact Or.inl (hab.trans hbc)
      · exact Or.inl (hbc ▸ hab)
    · rcases hbc with hbc | ⟨hbc, hbc'⟩
      · exact Or.inl (hab ▸ hbc)
      · exact Or.inr ⟨hab.trans hbc, hab'.trans hbc'⟩
  have hs : (argsort proba).Pairwise (fun i j => probaVal proba i < probaVal proba j ∨
      (probaVal proba i = probaVal proba j ∧ i ≤ j)) :=
    List.sorted_insertionSort _ _
  have hnd : (argsort proba).Nodup := by
    unfold argsort
    exact (List.perm_insertionSort _ _).symm.nodup (List.nodup_range _)
  refine (hs.and hnd).imp ?_
  rintro a b ⟨hr, hne⟩
  rcases hr with h | ⟨h, h'⟩
  · exact Or.inl h
  · exact Or.inr ⟨h, lt_of_le_of_ne h' hne⟩

/-- C1 (amended): the top-3 list is sorted by non-increasing confidence, and
classes with exactly equal probability appear in *descending* class-index
order (the reverse of an ascending stable sort puts the higher index first). -/
theorem top3_sorted (proba : List ℚ) :
    List.Chain' (fun i j => probaVal proba j < probaVal proba i ∨
      (probaVal proba j = probaVal proba i ∧ j < i)) (top3Indices proba) := by
  have h1 := argsort_sorted_strict proba
  have h2 : ((argsort proba).reverse).Pairwise
      (fun i j => probaVal proba j < probaVal proba i ∨
        (probaVal proba j = probaVal proba i ∧ j < i)) :=
    List.pairwise_reverse.mpr h1
  exact (h2.sublist (List.take_sublist _ _)).chain'

/-- Counterexample for C1 as stated: for the probability vector
`[1/2, 1/2]`, the two exactly tied classes come out as `[1, 0]` — the
*higher* class index first — violating the claimed lower-index-first tie
order. -/
theorem top3_tie_counterexample :
    top3Indices [(1 : ℚ)/2, 1/2] = [1, 0] ∧
    ¬ List.Chain' (fun i j => probaVal [(1 : ℚ)/2, 1/2] j < probaVal [(1 : ℚ)/2, 1/2] i ∨
      (probaVal [(1 : ℚ)/2, 1/2] j = probaVal [(1 : ℚ)/2, 1/2] i ∧ i < j))
      (top3Indices [(1 : ℚ)/2, 1/2]) := by
  have ht : top3Indices [(1 : ℚ)/2, 1/2] = [1, 0] := by decide
  refine ⟨ht, ?_⟩
  rw [ht]
  intro hch
  rcases List.chain'_cons.mp hch with ⟨hr, -⟩
  rcases hr with h | ⟨-, h'⟩
  · simp [probaVal] at h
  · omega

/-- The index of the last occurrence of `c` in `cs`, or `none`
(Python `str.rfind`). -/
def lastIdxOf (c : Char) (cs : List Char) : Option ℕ :=
  (cs.reverse.findIdx? (· == c)).map (fun i => cs.length - 1 - i)

/-- Embeds `os.path.splitext(p)[1]`: the extension including its leading dot — the
suffix from the last dot of the final path component, provided some earlier
character of that component is not a dot (so dotfiles have no extension). -/
def splitextExt (p : String) : String :=
  let cs := p.toList
  match lastIdxOf '.' cs with
  | none => ""
  | some dotIdx =>
    let sepIdx : ℕ :=
      match lastIdxOf '/' cs with
      | none => 0
      | some i => i + 1
    if sepIdx ≤ dotIdx then
      if ((cs.drop sepIdx).take (dotIdx - sepIdx)).any (· != '.') then
        String.mk (cs.drop dotIdx)
      else ""
    else ""

/-- Python `str.lower` on a single ASCII character: lower-cases `A`–`Z`,
leaves everything else unchanged (filename extensions here are ASCII). -/
def charLower (c : Char) : Char :=
  if 'A' ≤ c ∧ c ≤ 'Z' then Char.ofNat (c.toNat + 32) else c

/-- Python `str.lower`, applied character-wise. -/
def strToLower (s : String) : String := String.mk (s.toList.map charLower)

/-- The `allowed_extensions` set of `predict_from_audio`, in source order.
(The Python `set` has no canonical iteration order; the embedding joins the
listed order into the error message.) -/
def allowed_extensions : List String :=
  [".wav", ".mp3", ".flac", ".ogg", ".m4a", ".aac", ".wma"]

/-- The loaded classifier as the service sees it: optional declared input
width (`n_features_in_`), optional class list (`classes_`), a total
prediction function, and an optional probability function (`predict_proba`;
`none` models the attribute raising when absent). -/
structure Model where
  nFeaturesIn : Option ℕ
  classes : Option (List String)
  predictFn : List ℚ → String
  predictProbaFn : Option (List ℚ → List ℚ)

/-- The process-wide inference state set up by `load_artifacts`: model,
optional scaler, optional canonical feature-name list, and the persistence
configuration (`SAVE_UPLOADS` flag and whether a Supabase client exists). -/
structure Ctx where
  model : Model
  scaler : Option (List ℚ → List ℚ)
  featureNames : Option (List String)
  saveUploads : Bool
  supabaseConfigured : Bool

/-- The `PredictionResponse` body. -/
structure PredictionResponse where
  prediction : String
  top_3 : Option (List (String × ℚ))
  probabilities : Option (List ℚ)
  filename : Option String
  signed_url : Option String
  signed_url_expires_in : Option ℕ
  deriving DecidableEq

/-- A request outcome: a 200 body or an `HTTPException` with status and
detail. -/
inductive Outcome where
  | ok (resp : PredictionResponse)
  | httpError (status : ℕ) (detail : String)
  deriving DecidableEq

/-- Result of the feature-vector endpoint, with an observation of whether
`model.predict` was reached. -/
structure EndpointResult where
  outcome : Outcome
  modelInvoked : Bool
  deriving DecidableEq

/-- Embeds `X = scaler.transform(X)` when a scaler is configured, else `X`. -/
def applyScaler (scaler : Option (List ℚ → List ℚ)) (x : List ℚ) : List ℚ :=
  match scaler with
  | some f => f x
  | none => x

/-- The Python guard `expected_dim and X.shape[1] != expected_dim`: true only
when the model declares a non-zero input width that differs from the received
width (`None` and `0` are both falsy). -/
def dimMismatch (nf : Option ℕ) (n : ℕ) : Bool :=
  match nf with
  | some d => d != 0 && n != d
  | none => false

/-- A response carrying only prediction/top-3/probabilities, as returned by
the feature-vector endpoint (no storage fields). -/
def baseResponse (pred : String) (t3 : Option (List (String × ℚ)))
    (proba : Option (List ℚ)) : PredictionResponse :=
  { prediction := pred, top_3 := t3, probabilities := proba,
    filename := none, signed_url := none, signed_url_expires_in := none }

/-- The body of `/predict` after input validation: scale, predict, and the
guarded `predict_proba`/top-3 computation (`except Exception: proba_list =
None; top_3 = None`). -/
def predictRun (ctx : Ctx) (features : List ℚ) : EndpointResult :=
  let X := applyScaler ctx.scaler features
  let pred := ctx.model.predictFn X
  match ctx.model.predictProbaFn with
  | some pf =>
    let proba := pf X
    let top3 : Option (List (String × ℚ)) :=
      match ctx.model.classes with
      | some cls => some (computeTop3 cls proba)
      | none => none
    ⟨.ok (baseResponse pred top3 (some proba)), true⟩
  | none =>
    ⟨.ok (baseResponse pred none none), true⟩

/-- The `/predict` endpoint on an already-parsed feature list.  The embedded
`predictFn` is total (a raising `model.predict` would take the final 500
branch of the source, which no claim exercises). -/
def predict (ctx : Ctx) (features : List ℚ) : EndpointResult :=
  if dimMismatch ctx.model.nFeaturesIn features.length then
    ⟨.httpError 400 ("Expected " ++ toString (ctx.model.nFeaturesIn.getD 0)
      ++ " features, got " ++ toString features.length), false⟩
  else predictRun ctx features

/-- Embeds `features_dict_to_array`: `np.array([features[name] for name in
feature_names])`; `none` models the `KeyError` on a missing canonical name. -/
def features_dict_to_array (features : List (String × ℚ)) (feature_names : List String) :
    Option (List ℚ) :=
  feature_names.mapM (fun n => features.lookup n)

/-- Result of the audio endpoint, with observations of which stages ran:
whether the upload was decoded (`librosa.load` reached), whether the
DSP/feature pipeline ran, and whether the background persistence task was
dispatched. -/
structure AudioResult where
  outcome : Outcome
  decodeAttempted : Bool
  pipelineRun : Bool
  saveScheduled : Bool
  deriving DecidableEq

/-- The `/predict-audio` endpoint.  `decodeResult` models the outcome of
`librosa.load` on the uploaded bytes (`none` = decode raises, a 400);
`storageName` stands for the timestamp-derived storage filename (its exact
text encodes wall-clock time, which no claim inspects); `signedUrl` models
the best-effort `create_signed_url` result (`none` = the attempt failed and
was swallowed).  The three 500 fall-throughs of the unguarded prediction
block (`predict_proba` missing, `classes_` missing so `top_3[0]` subscripts
`None`, or an empty top-3) share the source's "Prediction failed" detail. -/
def audioOkResponse (pred : String) (t3 : List (String × ℚ)) (proba : List ℚ)
    (doSave : Bool) (storageName : String) (signedUrl : Option String) : PredictionResponse :=
  { prediction := pred, top_3 := some t3, probabilities := some proba,
    filename := if doSave then some storageName else none,
    signed_url := if doSave then signedUrl else none,
    signed_url_expires_in :=
      if doSave && signedUrl.isSome then some 900 else none }

def predict_from_audio (ctx : Ctx) (lib : LibFns) (filename : String)
    (decodeResult : Option (NpArray × ℕ)) (storageName : String)
    (signedUrl : Option String) : AudioResult :=
  let file_ext := (strToLower (splitextExt filename))
  if allowed_extensions.contains file_ext then
    match decodeResult with
    | none =>
      ⟨.httpError 400 "Failed to load audio file", true, false, false⟩
    | some (y, sr) =>
      let norm := normalize_audio lib y sr true
      let features_dict := lib.extract norm.1 norm.2
      match ctx.featureNames with
      | none =>
        ⟨.httpError 500 "Feature names not loaded", true, true, false⟩
      | some names =>
        match features_dict_to_array features_dict names with
        | none =>
          ⟨.httpError 500 "Feature ordering failed", true, true, false⟩
        | some fa =>
          if dimMismatch ctx.model.nFeaturesIn fa.length then
            ⟨.httpError 500 ("Feature extraction produced " ++ toString fa.length
              ++ " features, expected " ++ toString (ctx.model.nFeaturesIn.getD 0)),
              true, true, false⟩
          else
            let X := applyScaler ctx.scaler fa
            let pred := ctx.model.predictFn X
            match ctx.model.predictProbaFn with
            | none =>
              ⟨.httpError 500 "Prediction failed", true, true, false⟩
            | some pf =>
              let proba := pf X
              match ctx.model.classes with
              | none =>
                ⟨.httpError 500 "Prediction failed", true, true, false⟩
              | some cls =>
                match computeTop3 cls proba with
                | [] =>
                  ⟨.httpError 500 "Prediction failed", true, true, false⟩
                | first :: rest =>
                  let doSave := ctx.saveUploads && ctx.supabaseConfigured
                  ⟨.ok (audioOkResponse pred (first :: rest) proba doSave storageName signedUrl),
                    true, true, doSave⟩
  else
    ⟨.httpError 400 ("Unsupported audio format: " ++ file_ext ++ ". Supported formats: "
      ++ String.intercalate ", " allowed_extensions), false, false, false⟩

/-- Observable trace of one run of the `save_prediction_to_supabase`
coroutine: which of the two side effects were attempted, whether the
coroutine raised (the re-raised `RuntimeError` on upload failure, which the
background callback `_log_bg_result` then logs), and whether a DB-insert
failure was logged. -/
structure SaveTrace where
  uploadAttempted : Bool
  insertAttempted : Bool
  raised : Option String
  insertFailureLogged : Bool
  deriving DecidableEq

/-- Embeds `save_prediction_to_supabase`, driven by the outcomes of the two
external store calls (`Except.error` models the SDK call throwing).  On
upload failure the source re-raises `RuntimeError("Storage upload failed:
...")` before the metadata insert is reached; an insert failure is caught
and logged without raising. -/
def save_prediction_to_supabase (supabaseConfigured : Bool)
    (uploadResult insertResult : Except String Unit) : SaveTrace :=
  if supabaseConfigured then
    match uploadResult with
    | .error e =>
      ⟨true, false, some ("Storage upload failed: " ++ e), false⟩
    | .ok _ =>
      match insertResult with
      | .error _ => ⟨true, true, none, true⟩
      | .ok _ => ⟨true, true, none, false⟩
  else
    ⟨false, false, none, false⟩

/-- A demonstration classifier declaring 26 input features. -/
def demoModel : Model :=
  { nFeaturesIn := some 26, classes := some ["A", "B"],
    predictFn := fun _ => "A", predictProbaFn := some (fun _ => [1/2, 1/2]) }

/-- A context around `demoModel` with no scaler and no canonical
feature-name list. -/
def demoCtx : Ctx :=
  { model := demoModel, scaler := none, featureNames := none,
    saveUploads := false, supabaseConfigured := false }

/-- A classifier that declares no input width and lacks `predict_proba`. -/
def noDimModel : Model :=
  { nFeaturesIn := none, classes := some ["A"],
    predictFn := fun _ => "A", predictProbaFn := none }

/-- A context around `noDimModel` whose canonical feature list is the single
name `"a"`. -/
def noProbaCtx : Ctx :=
  { model := noDimModel, scaler := none, featureNames := some ["a"],
    saveUploads := false, supabaseConfigured := false }

/-- Library stand-in whose extractor always returns the single feature
`"a" = 1`. -/
def demoLib : LibFns := ⟨fun y _ => y, fun y _ _ => y, fun _ _ => [("a", 1)]⟩

theorem predictRun_ok (ctx : Ctx) (features : List ℚ) :
    (predictRun ctx features).modelInvoked = true ∧
    ∃ r, (predictRun ctx features).outcome = Outcome.ok r ∧
      r.prediction = ctx.model.predictFn (applyScaler ctx.scaler features) := by
  unfold predictRun
  cases hpf : ctx.model.predictProbaFn with
  | none => exact ⟨rfl, _, rfl, rfl⟩
  | some pf =>
    cases hc : ctx.model.classes with
    | none => exact ⟨rfl, _, rfl, rfl⟩
    | some cls => exact ⟨rfl, _, rfl, rfl⟩

theorem dimMismatch_falsy (nf : Option ℕ) (n : ℕ)
    (h : nf = none ∨ nf = some 0) : dimMismatch nf n = false := by
  rcases h with rfl | rfl <;> simp [dimMismatch]

/-- C7: a feature-vector request whose list length differs from the model's
declared non-zero expected input width fails with a 400 error whose detail
names both the expected and the received counts, and the model is not
invoked. -/
theorem predict_dim_mismatch (ctx : Ctx) (features : List ℚ) (d : ℕ)
    (hd : ctx.model.nFeaturesIn = some d) (hdz : 0 < d) (hne : features.length ≠ d) :
    predict ctx features =
      ⟨Outcome.httpError 400 ("Expected " ++ toString d ++ " features, got "
        ++ toString features.length), false⟩ := by
  have hm : dimMismatch ctx.model.nFeaturesIn features.length = true := by
    rw [hd]
    simp only [dimMismatch, Bool.and_eq_true, bne_iff_ne, ne_eq]
    omega
  unfold predict
  rw [hm, hd]
  simp

/-- Witness for C7 (spec Scenario A): 10 features against an expected 26
produce the 400 error citing expected 26, got 10. -/
theorem predict_dim_mismatch_witness :
    predict demoCtx (List.replicate 10 0) =
      ⟨Outcome.httpError 400 "Expected 26 features, got 10", false⟩ := by
  have h := predict_dim_mismatch demoCtx (List.replicate 10 0) 26 rfl (by decide) (by decide)
  exact h.trans (by decide)

/-- C10: when the model declares no input width (`n_features_in_` absent, or
the falsy `0`), no length validation occurs at all: a feature list of any
length is passed to the scaler and the model, and the request is never
rejected with an HTTP error. -/
theorem predict_no_dim_validation (ctx : Ctx) (features : List ℚ)
    (h : ctx.model.nFeaturesIn = none ∨ ctx.model.nFeaturesIn = some 0) :
    (predict ctx features).modelInvoked = true ∧
    (∀ s d, (predict ctx features).outcome ≠ Outcome.httpError s d) ∧
    (∃ r, (predict ctx features).outcome = Outcome.ok r ∧
      r.prediction = ctx.model.predictFn (applyScaler ctx.scaler features)) := by
  have hp : predict ctx features = predictRun ctx features := by
    unfold predict
    rw [dimMismatch_falsy _ _ h]
    simp
  obtain ⟨h1, r, h2, h3⟩ := predictRun_ok ctx features
  rw [hp]
  refine ⟨h1, ?_, r, h2, h3⟩
  intro s d hcon
  rw [h2] at hcon
  exact Outcome.noConfusion hcon

/-- Witness for C10: a model with no `n_features_in_` accepts a 3-element
feature list and invokes prediction on it. -/
theorem predict_no_dim_validation_witness :
    (predict noProbaCtx [1, 2, 3]).modelInvoked = true ∧
    (predict noProbaCtx [1, 2, 3]).outcome ≠ Outcome.httpError 400 "Expected 26 features, got 3" ∧
    ∃ r, (predict noProbaCtx [1, 2, 3]).outcome = Outcome.ok r ∧ r.prediction = "A" := by
  obtain ⟨h1, h2, r, h3, h4⟩ := predict_no_dim_validation noProbaCtx [1, 2, 3] (Or.inl rfl)
  exact ⟨h1, h2 400 _, r, h3, h4⟩

/-- C3 (amended): when the model lacks the probability capability, the
feature-vector endpoint still succeeds with the predicted label and simply
omits top-3 and probabilities; the audio endpoint, whose `predict_proba`
call is not guarded, instead fails with a 500 "Prediction failed" error. -/
theorem no_proba_capability (ctx : Ctx) (features : List ℚ)
    (hp : ctx.model.predictProbaFn = none)
    (hdim : dimMismatch ctx.model.nFeaturesIn features.length = false) :
    (predict ctx features =
      ⟨Outcome.ok (baseResponse (ctx.model.predictFn (applyScaler ctx.scaler features))
        none none), true⟩) ∧
    (∀ (lib : LibFns) (filename : String) (y : NpArray) (sr : ℕ)
        (storageName : String) (signedUrl : Option String)
        (names : List String) (fa : List ℚ),
      allowed_extensions.contains ((strToLower (splitextExt filename))) = true →
      ctx.featureNames = some names →
      features_dict_to_array
        (lib.extract (normalize_audio lib y sr true).1 (normalize_audio lib y sr true).2)
        names = some fa →
      dimMismatch ctx.model.nFeaturesIn fa.length = false →
      (predict_from_audio ctx lib filename (some (y, sr)) storageName signedUrl).outcome
        = Outcome.httpError 500 "Prediction failed") := by
  constructor
  · unfold predict
    rw [hdim]
    simp only [Bool.false_eq_true, if_false]
    unfold predictRun
    rw [hp]
  · intro lib filename y sr sn su names fa hext hnames harr hdim2
    simp only [predict_from_audio, hext, eq_self_iff_true, if_true, hnames, harr, hdim2,
      hp, Bool.false_eq_true, if_false]

/-- Witness for C3 (amended): for a concrete probability-less model, the
feature endpoint returns a bare success and the audio endpoint returns the
500 error. -/
theorem no_proba_capability_witness :
    (predict noProbaCtx [5] =
      ⟨Outcome.ok (baseResponse "A" none none), true⟩) ∧
    (predict_from_audio noProbaCtx demoLib "frog.wav" (some (NpArray.one [], 22050)) "s"
      none).outcome = Outcome.httpError 500 "Prediction failed" := by
  obtain ⟨h1, h2⟩ := no_proba_capability noProbaCtx [5] rfl rfl
  exact ⟨h1, h2 demoLib "frog.wav" (NpArray.one []) 22050 "s" none ["a"] [1]
    (by decide) rfl rfl rfl⟩

/-- Counterexample for C3 as stated: a concrete audio request against a
model without the probability capability does not succeed with omitted
fields — it fails with a 500 error. -/
theorem no_proba_audio_counterexample :
    (predict_from_audio noProbaCtx demoLib "frog.wav" (some (NpArray.one [], 22050)) "s"
      none).outcome = Outcome.httpError 500 "Prediction failed" ∧
    (predict_from_audio noProbaCtx demoLib "frog.wav" (some (NpArray.one [], 22050)) "s"
      none).outcome ≠ Outcome.ok (baseResponse "A" none none) := by
  constructor <;> decide

/-- C8: an upload whose lower-cased filename extension is not in the
allow-list is rejected with a 400 error naming the allowed set, with
neither the decode nor any pipeline stage attempted. -/
theorem audio_bad_extension (ctx : Ctx) (lib : LibFns) (filename : String)
    (dec : Option (NpArray × ℕ)) (sn : String) (su : Option String)
    (h : allowed_extensions.contains ((strToLower (splitextExt filename))) = false) :
    predict_from_audio ctx lib filename dec sn su =
      ⟨Outcome.httpError 400 ("Unsupported audio format: " ++ (strToLower (splitextExt filename))
        ++ ". Supported formats: " ++ String.intercalate ", " allowed_extensions),
        false, false, false⟩ := by
  simp only [predict_from_audio, h, Bool.false_eq_true, if_false]

/-- Witness for C8 (spec Scenario D): a `.bmp` upload is rejected before
decoding with the 400 error listing the seven allowed extensions. -/
theorem audio_bad_extension_witness :
    predict_from_audio demoCtx demoLib "photo.bmp" none "s" none =
      ⟨Outcome.httpError 400
        ("Unsupported audio format: .bmp. Supported formats: "
          ++ ".wav, .mp3, .flac, .ogg, .m4a, .aac, .wma"),
        false, false, false⟩ := by
  have h := audio_bad_extension demoCtx demoLib "photo.bmp" none "s" none (by decide)
  exact h.trans (by decide)

/-- C9: a missing canonical feature-order file makes every decodable,
well-formed audio prediction fail with a 500 "Feature names not loaded"
error, while the feature-vector endpoint never consults the feature order
(its result is invariant under changing it) and still succeeds on
length-valid input; a missing scaler makes both endpoints behave exactly as
if the scaling step were the identity. -/
theorem artifact_absence_behavior :
    (∀ (ctx : Ctx) (lib : LibFns) (filename : String) (y : NpArray) (sr : ℕ)
        (sn : String) (su : Option String),
      ctx.featureNames = none →
      allowed_extensions.contains ((strToLower (splitextExt filename))) = true →
      (predict_from_audio ctx lib filename (some (y, sr)) sn su).outcome
        = Outcome.httpError 500 "Feature names not loaded") ∧
    (∀ (ctx : Ctx) (fns : Option (List String)) (features : List ℚ),
      predict { ctx with featureNames := fns } features = predict ctx features) ∧
    (∀ (ctx : Ctx) (features : List ℚ),
      dimMismatch ctx.model.nFeaturesIn features.length = false →
      ∃ r, (predict ctx features).outcome = Outcome.ok r) ∧
    (∀ (ctx : Ctx) (features : List ℚ),
      predict { ctx with scaler := none } features
        = predict { ctx with scaler := some (fun x => x) } features) ∧
    (∀ (ctx : Ctx) (lib : LibFns) (filename : String) (dec : Option (NpArray × ℕ))
        (sn : String) (su : Option String),
      predict_from_audio { ctx with scaler := none } lib filename dec sn su
        = predict_from_audio { ctx with scaler := some (fun x => x) } lib filename dec sn su) := by
  refine ⟨?_, ?_, ?_, ?_, ?_⟩
  · intro ctx lib filename y sr sn su hnames hext
    simp only [predict_from_audio, hext, eq_self_iff_true, if_true, hnames]
  · intro ctx fns features
    rfl
  · intro ctx features hdim
    have hp : predict ctx features = predictRun ctx features := by
      unfold predict
      rw [hdim]
      simp
    obtain ⟨-, r, h2, -⟩ := predictRun_ok ctx features
    exact ⟨r, hp ▸ h2⟩
  · intro ctx features
    rfl
  · intro ctx lib filename dec sn su
    rfl

/-- Witness for C9: concrete instantiations of all five parts. -/
theorem artifact_absence_behavior_witness :
    (predict_from_audio demoCtx demoLib "frog.wav" (some (NpArray.one [], 22050)) "s"
      none).outcome = Outcome.httpError 500 "Feature names not loaded" ∧
    predict { noProbaCtx with featureNames := none } [5] = predict noProbaCtx [5] ∧
    (∃ r, (predict noProbaCtx [5]).outcome = Outcome.ok r) ∧
    predict { noProbaCtx with scaler := none } [5]
      = predict { noProbaCtx with scaler := some (fun x => x) } [5] ∧
    predict_from_audio { noProbaCtx with scaler := none } demoLib "frog.wav" none "s" none
      = predict_from_audio { noProbaCtx with scaler := some (fun x => x) } demoLib
          "frog.wav" none "s" none := by
  obtain ⟨p1, p2, p3, p4, p5⟩ := artifact_absence_behavior
  exact ⟨p1 demoCtx demoLib "frog.wav" (NpArray.one []) 22050 "s" none rfl (by decide),
    p2 noProbaCtx none [5], p3 noProbaCtx [5] rfl, p4 noProbaCtx [5],
    p5 noProbaCtx demoLib "frog.wav" none "s" none⟩

/-- C2 (amended): with persistence configured, the upload is attempted
exactly once.  When the upload succeeds, the metadata insert is attempted
exactly once, the coroutine does not raise, and an insert failure is logged.
When the upload fails, the coroutine re-raises (the background callback logs
the error) and the metadata insert is *not* attempted. -/
theorem save_prediction_effects (u i : Except String Unit) :
    (save_prediction_to_supabase true u i).uploadAttempted = true ∧
    (∀ e, u = Except.error e →
      (save_prediction_to_supabase true u i).insertAttempted = false ∧
      (save_prediction_to_supabase true u i).raised
        = some ("Storage upload failed: " ++ e)) ∧
    (u = Except.ok () →
      (save_prediction_to_supabase true u i).insertAttempted = true ∧
      (save_prediction_to_supabase true u i).raised = none ∧
      ∀ e, i = Except.error e →
        (save_prediction_to_supabase true u i).insertFailureLogged = true) := by
  cases u with
  | error e =>
    refine ⟨rfl, ?_, ?_⟩
    · intro e' he
      cases he
      exact ⟨rfl, rfl⟩
    · intro hok
      exact absurd hok (by simp)
  | ok v =>
    cases v
    cases i with
    | error e =>
      exact ⟨rfl, fun e' he => absurd he (by simp), fun _ => ⟨rfl, rfl, fun _ _ => rfl⟩⟩
    | ok w =>
      cases w
      exact ⟨rfl, fun e' he => absurd he (by simp),
        fun _ => ⟨rfl, rfl, fun e he => absurd he (by simp)⟩⟩

/-- Witness for C2 (amended): a successful upload followed by a failing
insert attempts both effects and logs the insert failure. -/
theorem save_prediction_effects_witness :
    (save_prediction_to_supabase true (Except.ok ()) (Except.error "db")).uploadAttempted
      = true ∧
    (save_prediction_to_supabase true (Except.ok ()) (Except.error "db")).insertAttempted
      = true ∧
    (save_prediction_to_supabase true (Except.ok ()) (Except.error "db")).insertFailureLogged
      = true := by
  obtain ⟨h1, -, h3⟩ := save_prediction_effects (Except.ok ()) (Except.error "db")
  obtain ⟨h4, -, h5⟩ := h3 rfl
  exact ⟨h1, h4, h5 "db" rfl⟩

/-- Counterexample for C2 as stated: with persistence enabled, a failing
upload leaves the metadata insert unattempted, contradicting the claimed
independence of the two effects. -/
theorem save_upload_failure_counterexample :
    (save_prediction_to_supabase true (Except.error "boom") (Except.ok ())).uploadAttempted
      = true ∧
    (save_prediction_to_supabase true (Except.error "boom") (Except.ok ())).insertAttempted
      = false := by
  constructor <;> rfl

end FrogAPI
